import Mathlib

/-!
Shallow embedding of `clone_ea_org.py`, a tool that lists every repository of
a GitHub organization and clones or updates each one locally.

Python strings are modelled as lists of characters, Python exceptions by their
message string, and the external world (HTTP responses, `git` exit codes,
wall-clock time, the `int` builtin) by explicit oracles passed to each
definition.  Fallible Python code becomes `Except`-valued Lean code.
-/

set_option maxHeartbeats 1000000

/-- Python strings, modelled as lists of characters. -/
abbrev PyStr : Type := List Char

/-- Python exceptions, modelled by their message string. -/
abbrev PyExn : Type := PyStr

/-- Python `s.startswith(p)`. -/
def pyStartswith : PyStr → PyStr → Bool
  | _, [] => true
  | [], _ :: _ => false
  | c :: s, p :: ps => (c == p) && pyStartswith s ps

/-- A repository record as returned by the GitHub listing API, keeping the
fields the script reads: `name`, `clone_url`, `ssh_url`, `archived`. -/
structure Repo where
  name : PyStr
  clone_url : PyStr
  ssh_url : PyStr
  archived : Bool
deriving DecidableEq

/-- One HTTP response to a page request in `fetch_all_repos`: the status code,
the body text (`resp.text`), the optional `X-RateLimit-Reset` header, and the
parsed JSON body when it is a list of repository records (`none` models a body
that is not a JSON list, including an unparsable body). -/
structure HttpResponse where
  statusCode : Nat
  body : PyStr
  resetHeader : Option PyStr
  json : Option (List Repo)
deriving DecidableEq

/-- Python substring containment `needle in hay`. -/
def strContains (needle : PyStr) : PyStr → Bool
  | [] => needle.isEmpty
  | c :: rest => pyStartswith (c :: rest) needle || strContains needle rest

/-- The rate-limit indicator test from line 92 of the source:
`"rate limit" in resp.text.lower()`. -/
def hasRateLimitText (body : PyStr) : Bool :=
  strContains (String.toList "rate limit") (body.map Char.toLower)

/-- Lines 93-99 of the source: compute the sleep duration from the
`X-RateLimit-Reset` header string (already defaulted to `""` by
`headers.get`).  `pyInt` models Python's `int` builtin applied to a string,
returning `none` when `int(...)` raises; `now` models `int(time.time())`.
`wait_s` starts at 60 and is only replaced when the header is a nonempty
string that parses. -/
def computeWait (pyInt : PyStr → Option Int) (reset : PyStr) (now : Int) : Int :=
  if reset = [] then 60
  else
    match pyInt reset with
    | some r => max 1 (r - now)
    | none => 60

/-- What one iteration of the `fetch_all_repos` loop decides to do with a
response. -/
inductive ListStep where
  | rateLimit (waitSecs : Int)
  | fatal
  | done
  | page (data : List Repo)
deriving DecidableEq

/-- The body of the `while True` loop of `fetch_all_repos` (lines 91-110),
up to the archived filter: check the rate-limit condition, then
`raise_for_status` (which raises exactly on 4xx/5xx), then the JSON shape,
then the empty-page termination test. -/
def listerStep (pyInt : PyStr → Option Int) (now : Int) (resp : HttpResponse) : ListStep :=
  if resp.statusCode == 403 && hasRateLimitText resp.body then
    .rateLimit (computeWait pyInt (resp.resetHeader.getD []) now)
  else if 400 ≤ resp.statusCode ∧ resp.statusCode < 600 then
    .fatal
  else
    match resp.json with
    | none => .fatal
    | some data => if data.isEmpty then .done else .page data

/-- The observable behaviour of a run of the `fetch_all_repos` loop:
the returned list (`none` when the loop raised), the pages requested in
order, the sleeps performed, and whether the loop actually exited (`false`
means the fuel ran out, an artifact of the embedding only). -/
structure FetchOut where
  result : Option (List Repo)
  trace : List Nat
  sleeps : List Int
  finished : Bool
deriving DecidableEq

/-- The `while True` loop of `fetch_all_repos` (lines 83-118).  `resps i` is
the response to the i-th HTTP request issued, `now i` the value of
`int(time.time())` during that iteration, `page` the current page number and
`acc` the `repos` accumulator.  A rate-limited response sleeps and retries the
same page; a fatal response raises; an empty page returns the accumulator;
otherwise the page's entries are appended after the archived filter
(line 112-115: skip when `not include_archived and repo.archived`) and the
page number advances. -/
def fetchLoop (pyInt : PyStr → Option Int) (includeArchived : Bool) (now : Nat → Int)
    (resps : Nat → HttpResponse) : Nat → Nat → Nat → List Repo → FetchOut
  | 0, _, _, _ => ⟨none, [], [], false⟩
  | fuel + 1, reqIdx, page, acc =>
    match listerStep pyInt (now reqIdx) (resps reqIdx) with
    | .rateLimit w =>
      let r := fetchLoop pyInt includeArchived now resps fuel (reqIdx + 1) page acc
      ⟨r.result, page :: r.trace, w :: r.sleeps, r.finished⟩
    | .fatal => ⟨none, [page], [], true⟩
    | .done => ⟨some acc, [page], [], true⟩
    | .page data =>
      let kept := data.filter (fun r => includeArchived || !r.archived)
      let r := fetchLoop pyInt includeArchived now resps fuel (reqIdx + 1) (page + 1) (acc ++ kept)
      ⟨r.result, page :: r.trace, r.sleeps, r.finished⟩

/-- `fetch_all_repos` (lines 72-120): run the pagination loop starting from
page 1 with an empty accumulator. -/
def fetch_all_repos (pyInt : PyStr → Option Int) (includeArchived : Bool) (now : Nat → Int)
    (resps : Nat → HttpResponse) (fuel : Nat) : FetchOut :=
  fetchLoop pyInt includeArchived now resps fuel 0 1 []

/-- What happens in `main` right after `fetch_all_repos` (lines 196-204): an
exception from listing exits the process with code 2 before any cloning; an
empty list returns early; otherwise cloning proceeds. -/
inductive MainAction where
  | exitTwo
  | noRepos
  | cloneAll (repos : List Repo)
deriving DecidableEq

/-- Dispatch on the outcome of listing, as `main` does on lines 196-204. -/
def mainAfterListing (fo : FetchOut) : MainAction :=
  match fo.result with
  | none => .exitTwo
  | some [] => .noRepos
  | some repos => .cloneAll repos

/-- A convenient constructor for a successful page response (status 200,
body irrelevant, JSON list `data`). -/
def listResponse (data : List Repo) : HttpResponse :=
  ⟨200, [], none, some data⟩

/-- The environment a single `clone_one` call runs against: whether the
target path exists on disk, and the behaviour of each `git` invocation
(`.ok code` for a process that ran and exited with `code`, `.error e` for
`run_git_cmd` raising, e.g. the `git` binary being missing).  `cloneCodes i`
is the behaviour of the i-th `git clone` attempt. -/
structure GitEnv where
  targetExists : Bool
  remoteUpdateCode : Except PyExn Int
  fetchCode : Except PyExn Int
  pullCode : Except PyExn Int
  cloneCodes : Nat → Except PyExn Int

/-- The observable behaviour of the clone retry loop: whether some attempt
exited 0, the sleeps performed (in seconds, in order), and the exit code of
the last attempt made. -/
structure CloneLoopRes where
  ok : Bool
  sleeps : List Nat
  lastCode : Int
deriving DecidableEq

/-- The retry loop of `clone_one` (lines 167-179).  `attempt` and `delay`
are the Python locals of the same names and `budget` is the number of
additional attempts still allowed (`retries - attempt`); the loop runs
`budget + 1` attempts at most, sleeping `delay` and doubling it before each
retry, and sleeps are only performed when another attempt follows. -/
def cloneLoop (codes : Nat → Except PyExn Int) : Nat → Nat → Nat → Except PyExn CloneLoopRes
  | attempt, delay, budget =>
    match codes attempt with
    | .error e => .error e
    | .ok code =>
      if code = 0 then .ok ⟨true, [], code⟩
      else
        match budget with
        | 0 => .ok ⟨false, [], code⟩
        | b + 1 =>
          match cloneLoop codes (attempt + 1) (delay * 2) b with
          | .error e => .error e
          | .ok rest => .ok ⟨rest.ok, delay :: rest.sleeps, rest.lastCode⟩

/-- The update attempt inside the `try` block of `clone_one` (lines 145-153):
for a mirror, one `git remote update --prune`; otherwise `git fetch --all
--prune` and, only when that exited 0, a `git pull --ff-only` whose exit code
is discarded (but whose raising propagates to the enclosing `except`).  The
returned code is the one tested by `if code == 0` on line 154. -/
def updatePhase (mirror : Bool) (env : GitEnv) : Except PyExn Int :=
  if mirror then env.remoteUpdateCode
  else
    match env.fetchCode with
    | .error e => .error e
    | .ok c =>
      if c = 0 then
        match env.pullCode with
        | .error e => .error e
        | .ok _ => .ok c
      else .ok c

/-- The target path of line 141: `os.path.join(dest_dir, name + (".git" if
mirror else ""))`. -/
def targetPath (destDir name : PyStr) (mirror : Bool) : PyStr :=
  destDir ++ '/' :: (name ++ (if mirror then String.toList ".git" else []))

/-- The clone command of lines 160-165. -/
def buildCloneCmd (mirror shallow : Bool) (url target : PyStr) : List PyStr :=
  ([String.toList "git", String.toList "clone"]
      ++ (if mirror then [String.toList "--mirror"] else [])
      ++ (if shallow && !mirror then
            [String.toList "--depth", String.toList "1", String.toList "--no-single-branch"]
          else []))
    ++ [url, target]

/-- The fresh-clone tail of `clone_one` (lines 159-179): run the retry loop
and turn its verdict into the returned string.  Note that an exception from
`run_git_cmd` here is NOT caught by anything in `clone_one`. -/
def clonePhase (name : PyStr) (codes : Nat → Except PyExn Int) (retries : Nat) :
    Except PyExn PyStr :=
  match cloneLoop codes 0 5 retries with
  | .error e => .error e
  | .ok r =>
    .ok ((if r.ok then String.toList "cloned: " else String.toList "failed: ") ++ name)

/-- `clone_one` (lines 136-179).  When the target exists, the update attempt
runs inside a `try` whose `except` swallows every exception and falls through
to the fresh clone; an update exit code of 0 returns `"updated: <name>"`;
everything else falls through to the fresh-clone retry loop. -/
def clone_one (repo : Repo) (destDir : PyStr) (useSSH shallow mirror : Bool)
    (retries : Nat) (env : GitEnv) : Except PyExn PyStr :=
  let name := repo.name
  let url := if useSSH then repo.ssh_url else repo.clone_url
  let target := targetPath destDir name mirror
  let _cmd := buildCloneCmd mirror shallow url target
  if env.targetExists then
    match updatePhase mirror env with
    | .ok code =>
      if code = 0 then .ok (String.toList "updated: " ++ name) else clonePhase name env.cloneCodes retries
    | .error _ => clonePhase name env.cloneCodes retries
  else clonePhase name env.cloneCodes retries

/-- The exponential backoff schedule: `n` sleeps starting at `d` seconds and
doubling each time. -/
def expSleeps (d n : Nat) : List Nat :=
  (List.range n).map (fun i => d * 2 ^ i)

/-- The worker-pool size computation of line 229:
`workers = max(1, min(args.workers, 16))`. -/
def effectiveWorkers (w : Int) : Int :=
  max 1 (min w 16)

/-- The spec's `CloneOutcome` data model: `Cloned(name)`, `Updated(name)`,
`Failed(detail)`.  The code itself works with the rendered strings; this
inductive is the abstraction the summary claims are stated against. -/
inductive CloneOutcome where
  | cloned (name : PyStr)
  | updated (name : PyStr)
  | failed (detail : PyStr)
deriving DecidableEq

/-- The string the code uses for each outcome (`f"cloned: {name}"`,
`f"updated: {name}"`, `f"failed: {name}"` / `f"failed: {e}"`). -/
def CloneOutcome.render : CloneOutcome → PyStr
  | .cloned n => String.toList "cloned: " ++ n
  | .updated n => String.toList "updated: " ++ n
  | .failed d => String.toList "failed: " ++ d

/-- Whether an outcome is a success (Cloned or Updated). -/
def CloneOutcome.isSuccess : CloneOutcome → Bool
  | .cloned _ => true
  | .updated _ => true
  | .failed _ => false

/-- Whether an outcome is Failed. -/
def CloneOutcome.isFailed : CloneOutcome → Bool
  | .failed _ => true
  | _ => false

/-- The name or detail carried by an outcome. -/
def CloneOutcome.payload : CloneOutcome → PyStr
  | .cloned n => n
  | .updated n => n
  | .failed d => d

/-- The success test of line 240: `r.startswith(("cloned:", "updated:"))`. -/
def isSuccessLine (r : PyStr) : Bool :=
  pyStartswith r (String.toList "cloned:") || pyStartswith r (String.toList "updated:")

/-- The failure test of line 241: `r.startswith("failed:")`. -/
def isFailedLine (r : PyStr) : Bool :=
  pyStartswith r (String.toList "failed:")

/-- Line 240: `ok = sum(1 for r in results if r.startswith(("cloned:", "updated:")))`. -/
def okCount (results : List PyStr) : Nat :=
  results.countP (fun r => isSuccessLine r)

/-- Line 241: `failed = [r for r in results if r.startswith("failed:")]`. -/
def failedList (results : List PyStr) : List PyStr :=
  results.filter (fun r => isFailedLine r)

/-- Lines 251-253: the bytes written to the log file, one `line + "\n"` per
result. -/
def logFileContents (results : List PyStr) : PyStr :=
  (results.map (fun r => r ++ ['\n'])).flatten

/-- Line 237: the string recorded when a worker future raised,
`f"failed: {e}"`. -/
def formatTaskError (e : PyExn) : PyStr :=
  String.toList "failed: " ++ e

/-- Lines 232-237: fold over the completed futures, keeping each result and
turning each raised exception into a `failed:` line. -/
def collectResults (completed : List (Except PyExn PyStr)) : List PyStr :=
  completed.map (fun r => match r with | .ok s => s | .error e => formatTaskError e)

/-- Lines 223-226: the unit of work submitted per descriptor, one
`clone_one` call against that descriptor's environment. -/
def runTask (destDir : PyStr) (useSSH shallow mirror : Bool) (retries : Nat)
    (envOf : Repo → GitEnv) (r : Repo) : Except PyExn PyStr :=
  clone_one r destDir useSSH shallow mirror retries (envOf r)

/-- A concrete repository descriptor used in concrete evaluations. -/
def cxRepo : Repo :=
  ⟨String.toList "repoA", String.toList "https://x/repoA.git", String.toList "git@x:repoA.git", false⟩

/-- A concrete environment where every `git clone` attempt raises. -/
def cxEnvRaise : GitEnv :=
  ⟨false, .ok 0, .ok 0, .ok 0, fun _ => .error (String.toList "git executable not found")⟩

/-- A concrete environment where every `git clone` attempt exits 1. -/
def cxEnvOne : GitEnv := ⟨false, .ok 0, .ok 0, .ok 0, fun _ => .ok 1⟩

/-- A concrete environment where every `git clone` attempt exits 2. -/
def cxEnvTwo : GitEnv := ⟨false, .ok 0, .ok 0, .ok 0, fun _ => .ok 2⟩

/-- A concrete repository descriptor used in witnesses. -/
def wRepo : Repo := ⟨String.toList "w", String.toList "u", String.toList "v", false⟩

/-- A concrete archived repository descriptor used in witnesses. -/
def wRepoArch : Repo := ⟨String.toList "old", [], [], true⟩

/-- A concrete environment whose update phase raises (the target exists but
the fetch invocation cannot be started) and whose clones exit 0. -/
def wEnvOk : GitEnv :=
  ⟨true, .error (String.toList "spawn failed"), .error (String.toList "spawn failed"), .ok 0,
   fun _ => .ok 0⟩

/-- A concrete environment with a successful fetch and a failing pull. -/
def wEnvPull : GitEnv := ⟨true, .ok 0, .ok 0, .ok 128, fun _ => .ok 1⟩

/-- A concrete environment where the fetch exits 9 (nonzero) without raising. -/
def wEnvFetchBad : GitEnv := ⟨true, .ok 0, .ok 9, .ok 0, fun _ => .ok 0⟩

/-- A concrete environment whose clone attempts fail twice and then succeed. -/
def wEnvRetry : GitEnv :=
  ⟨false, .ok 0, .ok 0, .ok 0, fun i => if i < 2 then .ok 1 else .ok 0⟩

/-- A concrete environment where every clone attempt raises. -/
def wEnvRaise : GitEnv := ⟨false, .ok 0, .ok 0, .ok 0, fun _ => .error (String.toList "boom")⟩

/-- A concrete rate-limited response (403 plus a rate-limit indicator) whose
reset header does not parse as an integer. -/
def wRateLimited : HttpResponse :=
  ⟨403, String.toList "API Rate Limit Exceeded", some (String.toList "oops"), none⟩

/-- A concrete response stream: one rate-limited answer, then an empty page. -/
def wRespsRL : Nat → HttpResponse :=
  fun i => if i = 0 then wRateLimited else listResponse []

/-- A concrete page map with one nonempty page followed by empty pages. -/
def wPages : Nat → List Repo := fun n => if n = 1 then [wRepo] else []

/-- The response stream serving `wPages` in order. -/
def wRespsPages : Nat → HttpResponse := fun i => listResponse (wPages (i + 1))

/-- A concrete response stream with one page holding a live and an archived
repository, followed by empty pages. -/
def wRespsArch : Nat → HttpResponse :=
  fun i => if i = 0 then listResponse [wRepo, wRepoArch] else listResponse []

theorem cloneLoop_isOk (codes : Nat → Except PyExn Int) (h : ∀ i, ∃ k, codes i = .ok k) :
    ∀ b a d, ∃ r, cloneLoop codes a d b = .ok r := by
  intro b
  induction b with
  | zero =>
    intro a d
    obtain ⟨k, hk⟩ := h a
    by_cases hz : k = 0
    · exact ⟨⟨true, [], k⟩, by simp [cloneLoop, hk, hz]⟩
    · exact ⟨⟨false, [], k⟩, by simp [cloneLoop, hk, hz]⟩
  | succ b ih =>
    intro a d
    obtain ⟨k, hk⟩ := h a
    by_cases hz : k = 0
    · exact ⟨⟨true, [], k⟩, by simp [cloneLoop, hk, hz]⟩
    · obtain ⟨r, hr⟩ := ih (a + 1) (d * 2)
      exact ⟨⟨r.ok, d :: r.sleeps, r.lastCode⟩, by simp [cloneLoop, hk, hz, hr]⟩

theorem clonePhase_isOk (name : PyStr) (codes : Nat → Except PyExn Int) (retries : Nat)
    (h : ∀ i, ∃ k, codes i = .ok k) : ∃ s, clonePhase name codes retries = .ok s := by
  obtain ⟨r, hr⟩ := cloneLoop_isOk codes h retries 0 5
  refine ⟨(if r.ok then String.toList "cloned: " else String.toList "failed: ") ++ name, ?_⟩
  unfold clonePhase
  rw [hr]

/-- C1: the claim as stated is false: with a fresh clone whose `git`
invocation raises (for example, the `git` binary is missing), the exception
propagates out of `clone_one` instead of being captured into a `failed`
outcome. -/
theorem clone_one_exception_escapes :
    clone_one cxRepo (String.toList "/dest") false true false 2 cxEnvRaise
      = .error (String.toList "git executable not found") := rfl

/-- C1 (amended): whenever every `git clone` invocation runs to an exit code,
`clone_one` returns an outcome string and no exception escapes — in
particular every exception raised during the update phase is swallowed and
control falls through to the fresh-clone path; only an exception raised by a
fresh-clone `git` invocation itself propagates. -/
theorem clone_one_amended_total (repo : Repo) (destDir : PyStr) (useSSH shallow mirror : Bool)
    (retries : Nat) (env : GitEnv) :
    ((∀ i, ∃ k, env.cloneCodes i = .ok k) →
      ∃ s, clone_one repo destDir useSSH shallow mirror retries env = .ok s)
    ∧ (∀ e, env.targetExists = true → updatePhase mirror env = .error e →
        clone_one repo destDir useSSH shallow mirror retries env
          = clonePhase repo.name env.cloneCodes retries) := by
  constructor
  · intro h
    obtain ⟨s, hs⟩ := clonePhase_isOk repo.name env.cloneCodes retries h
    cases henv : env.targetExists with
    | true =>
      cases hup : updatePhase mirror env with
      | ok code =>
        by_cases hcz : code = 0
        · exact ⟨String.toList "updated: " ++ repo.name, by simp [clone_one, henv, hup, hcz]⟩
        · exact ⟨s, by simp [clone_one, henv, hup, hcz, hs]⟩
      | error e => exact ⟨s, by simp [clone_one, henv, hup, hs]⟩
    | false => exact ⟨s, by simp [clone_one, henv, hs]⟩
  · intro e hex herr
    simp [clone_one, hex, herr]

/-- C1 witness: with update-phase invocations raising and clone exit codes 0,
an outcome is returned, and the update-phase exception falls through to the
fresh-clone path. -/
theorem clone_one_amended_total_witness :
    (∃ s, clone_one wRepo [] false true false 1 wEnvOk = .ok s)
    ∧ clone_one wRepo [] false true false 1 wEnvOk
        = clonePhase wRepo.name wEnvOk.cloneCodes 1 :=
  ⟨(clone_one_amended_total wRepo [] false true false 1 wEnvOk).1 (fun _ => ⟨0, rfl⟩),
   (clone_one_amended_total wRepo [] false true false 1 wEnvOk).2
     (String.toList "spawn failed") rfl rfl⟩

/-- C3: in non-mirror mode, when the target exists and the fetch exits 0,
the outcome is `updated` whatever the exit status of the subsequent
fast-forward-only pull. -/
theorem updated_ignores_pull_exit (repo : Repo) (destDir : PyStr) (useSSH shallow : Bool)
    (retries : Nat) (env : GitEnv) (c : Int)
    (hex : env.targetExists = true) (hfetch : env.fetchCode = .ok 0)
    (hpull : env.pullCode = .ok c) :
    clone_one repo destDir useSSH shallow false retries env
      = .ok (String.toList "updated: " ++ repo.name) := by
  have hup : updatePhase false env = .ok 0 := by simp [updatePhase, hfetch, hpull]
  simp [clone_one, hex, hup]

/-- C3 witness: a pull exiting 128 still yields `updated`. -/
theorem updated_ignores_pull_exit_witness :
    clone_one wRepo [] false true false 0 wEnvPull
      = .ok (String.toList "updated: " ++ wRepo.name) :=
  updated_ignores_pull_exit wRepo [] false true 0 wEnvPull 128 rfl rfl rfl

/-- C9: when the target exists and the update command completes with a
nonzero exit code (mirror remote-update, or the non-mirror fetch), the
worker neither returns `updated` nor fails there: the outcome is exactly
what the fresh-clone retry loop decides, and the clone command's final
argument is the still-existing target path. -/
theorem update_nonzero_falls_through (repo : Repo) (destDir : PyStr)
    (useSSH shallow mirror : Bool) (retries : Nat) (env : GitEnv) (c : Int)
    (hex : env.targetExists = true)
    (hcode : (mirror = true ∧ env.remoteUpdateCode = .ok c)
      ∨ (mirror = false ∧ env.fetchCode = .ok c))
    (hc : c ≠ 0) :
    clone_one repo destDir useSSH shallow mirror retries env
      = clonePhase repo.name env.cloneCodes retries
    ∧ (buildCloneCmd mirror shallow (if useSSH then repo.ssh_url else repo.clone_url)
        (targetPath destDir repo.name mirror)).getLast?
      = some (targetPath destDir repo.name mirror) := by
  constructor
  · rcases hcode with ⟨hm, hru⟩ | ⟨hm, hf⟩
    · subst hm
      have hup : updatePhase true env = .ok c := by simp [updatePhase, hru]
      simp [clone_one, hex, hup, hc]
    · subst hm
      have hup : updatePhase false env = .ok c := by simp [updatePhase, hf, hc]
      simp [clone_one, hex, hup, hc]
  · unfold buildCloneCmd
    rw [show [if useSSH then repo.ssh_url else repo.clone_url,
        targetPath destDir repo.name mirror]
      = [if useSSH then repo.ssh_url else repo.clone_url]
          ++ [targetPath destDir repo.name mirror] from rfl,
      ← List.append_assoc, List.getLast?_concat]

/-- C9 witness: a fetch exiting 9 falls through to the fresh-clone loop. -/
theorem update_nonzero_falls_through_witness :
    clone_one wRepo [] false true false 3 wEnvFetchBad
      = clonePhase wRepo.name wEnvFetchBad.cloneCodes 3
    ∧ (buildCloneCmd false true (if false then wRepo.ssh_url else wRepo.clone_url)
        (targetPath [] wRepo.name false)).getLast? = some (targetPath [] wRepo.name false) :=
  update_nonzero_falls_through wRepo [] false true false 3 wEnvFetchBad 9 rfl
    (Or.inr ⟨rfl, rfl⟩) (by decide)

/-- C7: the effective worker count is `max(1, min(w, 16))`, clamping zero and
negative values to 1 and values above 16 to 16, with in-range values kept. -/
theorem workers_clamped (w : Int) :
    effectiveWorkers w = max 1 (min w 16)
    ∧ (w ≤ 0 → effectiveWorkers w = 1)
    ∧ (16 ≤ w → effectiveWorkers w = 16)
    ∧ 1 ≤ effectiveWorkers w
    ∧ effectiveWorkers w ≤ 16
    ∧ (1 ≤ w → w ≤ 16 → effectiveWorkers w = w) := by
  unfold effectiveWorkers
  refine ⟨rfl, ?_, ?_, ?_, ?_, ?_⟩ <;> intros <;> omega

/-- C7 witness: `--workers 0` becomes 1 and `--workers 100` becomes 16. -/
theorem workers_clamped_witness :
    effectiveWorkers 0 = 1 ∧ effectiveWorkers 100 = 16 :=
  ⟨(workers_clamped 0).2.1 (by decide), (workers_clamped 100).2.2.1 (by decide)⟩

/-- C10: the orchestrator's result list has exactly one entry per submitted
descriptor: however the futures complete (any permutation of the per-task
results, raised exceptions included, since each exception is collected as a
`failed:` line), the collected list's length equals the descriptor count. -/
theorem one_result_per_descriptor (destDir : PyStr) (useSSH shallow mirror : Bool)
    (retries : Nat) (envOf : Repo → GitEnv) (selected : List Repo)
    (completed : List (Except PyExn PyStr))
    (hperm : completed.Perm (selected.map (runTask destDir useSSH shallow mirror retries envOf))) :
    (collectResults completed).length = selected.length := by
  unfold collectResults
  rw [List.length_map, hperm.length_eq, List.length_map]

/-- C10 witness: a single descriptor whose task raises still produces exactly
one result entry. -/
theorem one_result_per_descriptor_witness :
    (collectResults ([wRepo].map (runTask [] false true false 0 (fun _ => wEnvRaise)))).length
      = 1 :=
  one_result_per_descriptor [] false true false 0 (fun _ => wEnvRaise) [wRepo]
    ([wRepo].map (runTask [] false true false 0 (fun _ => wEnvRaise))) (List.Perm.refl _)

theorem expSleeps_succ (d b : Nat) : expSleeps d (b + 1) = d :: expSleeps (2 * d) b := by
  unfold expSleeps
  rw [List.range_succ_eq_map]
  simp only [List.map_cons, List.map_map, pow_zero, mul_one, List.cons.injEq, true_and]
  apply List.map_congr_left
  intro i _
  simp [Function.comp, pow_succ]
  ring

theorem cloneLoop_allFail (codes : Nat → Except PyExn Int) (c : Nat → Int)
    (hc : ∀ i, codes i = .ok (c i)) :
    ∀ b a d, (∀ i, i ≤ b → c (a + i) ≠ 0) →
      cloneLoop codes a d b = .ok ⟨false, expSleeps d b, c (a + b)⟩ := by
  intro b
  induction b with
  | zero =>
    intro a d h
    have h0 : c a ≠ 0 := by simpa using h 0 (Nat.le_refl 0)
    simp [cloneLoop, hc a, h0, expSleeps]
  | succ b ih =>
    intro a d h
    have h0 : c a ≠ 0 := by simpa using h 0 (Nat.zero_le _)
    have hrec := ih (a + 1) (d * 2) (fun i hi => by
      have := h (i + 1) (by omega)
      simpa [Nat.add_assoc, Nat.add_comm 1 i] using this)
    have hlast : a + 1 + b = a + (b + 1) := by omega
    rw [hlast] at hrec
    simp [cloneLoop, hc a, h0, hrec, expSleeps_succ, Nat.mul_comm]

theorem cloneLoop_firstZero (codes : Nat → Except PyExn Int) (c : Nat → Int)
    (hc : ∀ i, codes i = .ok (c i)) :
    ∀ j b a d, j ≤ b → (∀ i, i < j → c (a + i) ≠ 0) → c (a + j) = 0 →
      cloneLoop codes a d b = .ok ⟨true, expSleeps d j, 0⟩ := by
  intro j
  induction j with
  | zero =>
    intro b a d _ _ hz
    have hz' : c a = 0 := by simpa using hz
    simp [cloneLoop, hc a, hz', expSleeps]
  | succ j ih =>
    intro b a d hjb hlt hz
    have h0 : c a ≠ 0 := by simpa using hlt 0 (Nat.succ_pos j)
    obtain ⟨b', rfl⟩ : ∃ b', b = b' + 1 := ⟨b - 1, by omega⟩
    have hrec := ih b' (a + 1) (d * 2) (by omega)
      (fun i hi => by
        have := hlt (i + 1) (by omega)
        simpa [Nat.add_assoc, Nat.add_comm 1 i] using this)
      (by
        have : a + 1 + j = a + (j + 1) := by omega
        rw [this]
        exact hz)
    simp [cloneLoop, hc a, h0, hrec, expSleeps_succ, Nat.mul_comm]

/-- C2: the claim as stated is false in its last conjunct: two runs that
exhaust their retries with different last exit codes (1 versus 2) return the
identical outcome string `"failed: repoA"`, so the `failed` outcome carries
the repository name but not the last exit code. -/
theorem failed_outcome_lacks_exit_code :
    clone_one cxRepo (String.toList "/dest") false true false 2 cxEnvOne
      = clone_one cxRepo (String.toList "/dest") false true false 2 cxEnvTwo
    ∧ clone_one cxRepo (String.toList "/dest") false true false 2 cxEnvOne
      = .ok (String.toList "failed: repoA") := ⟨rfl, rfl⟩

/-- C2 (amended): the worker retries up to `retries` additional times on
nonzero exit, sleeping 5 seconds before the first retry and doubling before
each later one (5, 10, 20, ...); a zero exit on any attempt, the final one
included, yields `cloned`, and exhausting every retry yields a `failed`
outcome that carries the repository name only (the last exit code is seen by
the retry loop but not carried in the outcome string). -/
theorem clone_retry_backoff (repo : Repo) (destDir : PyStr) (useSSH shallow mirror : Bool)
    (retries : Nat) (env : GitEnv) (c : Nat → Int)
    (henv : env.targetExists = false)
    (hc : ∀ i, env.cloneCodes i = .ok (c i)) :
    ((∀ i, i < retries → c i ≠ 0) → c retries = 0 →
      clone_one repo destDir useSSH shallow mirror retries env
        = .ok (String.toList "cloned: " ++ repo.name)
      ∧ cloneLoop env.cloneCodes 0 5 retries = .ok ⟨true, expSleeps 5 retries, 0⟩)
    ∧ ((∀ i, i ≤ retries → c i ≠ 0) →
      clone_one repo destDir useSSH shallow mirror retries env
        = .ok (String.toList "failed: " ++ repo.name)
      ∧ cloneLoop env.cloneCodes 0 5 retries = .ok ⟨false, expSleeps 5 retries, c retries⟩)
    ∧ (∀ j, j ≤ retries → (∀ i, i < j → c i ≠ 0) → c j = 0 →
      clone_one repo destDir useSSH shallow mirror retries env
        = .ok (String.toList "cloned: " ++ repo.name)) := by
  refine ⟨?_, ?_, ?_⟩
  · intro hlt hz
    have hloop := cloneLoop_firstZero env.cloneCodes c hc retries retries 0 5
      (Nat.le_refl _) (fun i hi => by simpa using hlt i hi) (by simpa using hz)
    exact ⟨by simp [clone_one, henv, clonePhase, hloop], hloop⟩
  · intro hall
    have hloop := cloneLoop_allFail env.cloneCodes c hc retries 0 5
      (fun i hi => by simpa using hall i hi)
    rw [show (0 : Nat) + retries = retries from Nat.zero_add retries] at hloop
    exact ⟨by simp [clone_one, henv, clonePhase, hloop], hloop⟩
  · intro j hj hlt hz
    have hloop := cloneLoop_firstZero env.cloneCodes c hc j retries 0 5 hj
      (fun i hi => by simpa using hlt i hi) (by simpa using hz)
    simp [clone_one, henv, clonePhase, hloop]

/-- C2 witness: retries 2, exit codes 1, 1, 0: the outcome is `cloned` and
the sleeps are 5 then 10 seconds. -/
theorem clone_retry_backoff_witness :
    clone_one wRepo [] false true false 2 wEnvRetry
      = .ok (String.toList "cloned: " ++ wRepo.name)
    ∧ cloneLoop wEnvRetry.cloneCodes 0 5 2 = .ok ⟨true, [5, 10], 0⟩ := by
  have h := (clone_retry_backoff wRepo [] false true false 2 wEnvRetry
      (fun i => if i < 2 then 1 else 0) rfl
      (fun i => by by_cases hi : i < 2 <;> simp [wEnvRetry, hi])).1
    (fun i hi => by simp [hi]) (by simp)
  refine ⟨h.1, ?_⟩
  rw [h.2]
  rfl

/-- C4: a 403 response with a rate-limit indicator makes the lister sleep for
the duration computed from the `X-RateLimit-Reset` header (60 seconds when the
header is absent or unparsable) and re-request the same page number, while any
other non-success (4xx/5xx) response aborts the loop with a raised error,
which `main` turns into exit code 2 before any cloning starts. -/
theorem rate_limit_retries_same_page (pyInt : PyStr → Option Int) (inc : Bool)
    (now : Nat → Int) (resps : Nat → HttpResponse) (fuel reqIdx page : Nat)
    (acc : List Repo) :
    (((resps reqIdx).statusCode == 403 && hasRateLimitText (resps reqIdx).body) = true →
      fetchLoop pyInt inc now resps (fuel + 1) reqIdx page acc =
        ⟨(fetchLoop pyInt inc now resps fuel (reqIdx + 1) page acc).result,
         page :: (fetchLoop pyInt inc now resps fuel (reqIdx + 1) page acc).trace,
         computeWait pyInt ((resps reqIdx).resetHeader.getD []) (now reqIdx)
           :: (fetchLoop pyInt inc now resps fuel (reqIdx + 1) page acc).sleeps,
         (fetchLoop pyInt inc now resps fuel (reqIdx + 1) page acc).finished⟩)
    ∧ (∀ t : Int, computeWait pyInt [] t = 60)
    ∧ (∀ (s : PyStr) (t : Int), s ≠ [] → pyInt s = none → computeWait pyInt s t = 60)
    ∧ (((resps reqIdx).statusCode == 403 && hasRateLimitText (resps reqIdx).body) = false →
      400 ≤ (resps reqIdx).statusCode → (resps reqIdx).statusCode < 600 →
      fetchLoop pyInt inc now resps (fuel + 1) reqIdx page acc = ⟨none, [page], [], true⟩
      ∧ mainAfterListing ⟨none, [page], [], true⟩ = .exitTwo) := by
  refine ⟨?_, ?_, ?_, ?_⟩
  · intro h
    simp [fetchLoop, listerStep, h]
  · intro t
    rfl
  · intro s t hs hp
    simp [computeWait, hs, hp]
  · intro h h4 h6
    refine ⟨?_, rfl⟩
    simp [fetchLoop, listerStep, h, h4, h6]

/-- C4 witness: a 403 rate-limited response with an unparsable reset header
sleeps 60 seconds and requests page 1 again, after which the empty page ends
the listing. -/
theorem rate_limit_retries_same_page_witness :
    fetchLoop (fun _ => none) false (fun _ => 5) wRespsRL 2 0 1 []
      = ⟨some [], [1, 1], [60], true⟩
    ∧ computeWait (fun _ => none) (String.toList "oops") 5 = 60 := by
  have h := rate_limit_retries_same_page (fun _ => none) false (fun _ => 5) wRespsRL 1 0 1 []
  refine ⟨?_, h.2.2.1 (String.toList "oops") 5 (by decide) rfl⟩
  rw [h.1 (by decide)]
  decide

theorem range'_pairwise_lt (n s : Nat) : (List.range' s n).Pairwise (· < ·) := by
  induction n generalizing s with
  | zero => simp
  | succ n ih =>
    rw [List.range'_succ]
    refine List.Pairwise.cons ?_ (ih (s + 1))
    intro b hb
    have := (List.mem_range'_1.mp hb).1
    omega

theorem flatten_map_filter_sublist (p : Repo → Bool) (f : Nat → List Repo) :
    ∀ idx : List Nat,
      List.Sublist ((idx.map (fun x => (f x).filter p)).flatten) ((idx.map f).flatten) := by
  intro idx
  induction idx with
  | nil => simp
  | cons x rest ih =>
    simp only [List.map_cons, List.flatten_cons]
    exact List.Sublist.append (List.filter_sublist (f x)) ih

theorem fetchLoop_listPages (pyInt : PyStr → Option Int) (inc : Bool) (now : Nat → Int)
    (resps : Nat → HttpResponse) (pages : Nat → List Repo)
    (H : ∀ i, resps i = listResponse (pages (i + 1))) :
    ∀ m reqIdx acc fuel, m < fuel → pages (reqIdx + 1 + m) = [] →
      (∀ j, reqIdx + 1 ≤ j → j < reqIdx + 1 + m → pages j ≠ []) →
      fetchLoop pyInt inc now resps fuel reqIdx (reqIdx + 1) acc =
        ⟨some (acc ++ ((List.range' (reqIdx + 1) m).map
            (fun p => (pages p).filter (fun r => inc || !r.archived))).flatten),
         List.range' (reqIdx + 1) (m + 1), [], true⟩ := by
  intro m
  induction m with
  | zero =>
    intro reqIdx acc fuel hf he _
    obtain ⟨f, rfl⟩ : ∃ f, fuel = f + 1 := ⟨fuel - 1, by omega⟩
    have he' : pages (reqIdx + 1) = [] := by simpa using he
    simp [fetchLoop, listerStep, H reqIdx, listResponse, he']
  | succ m ih =>
    intro reqIdx acc fuel hf he hne
    obtain ⟨f, rfl⟩ : ∃ f, fuel = f + 1 := ⟨fuel - 1, by omega⟩
    have hne1 : pages (reqIdx + 1) ≠ [] := hne (reqIdx + 1) (Nat.le_refl _) (by omega)
    have ihx := ih (reqIdx + 1)
      (acc ++ (pages (reqIdx + 1)).filter (fun r => inc || !r.archived)) f (by omega)
      (by
        have harr : reqIdx + 1 + 1 + m = reqIdx + 1 + (m + 1) := by omega
        rw [harr]
        exact he)
      (fun j hj1 hj2 => hne j (by omega) (by omega))
    simp only [fetchLoop, listerStep, H reqIdx, listResponse]
    simp only [show ((200 : Nat) == 403) = false from rfl, Bool.false_and, Bool.false_eq_true,
      if_false]
    rw [if_neg (by omega)]
    simp only [List.isEmpty_eq_true, hne1, if_false]
    rw [ihx]
    simp only [List.range'_succ]
    simp [List.append_assoc]

/-- C5: when the pages served are lists and the first empty page is page `k`,
the pagination loop stops at that first empty page, has requested exactly
pages 1, 2, ..., k in strictly increasing order (so no page is requested or
appended twice), and returns the concatenation of the filtered pages 1..k-1
in order; if the served entries are globally duplicate-free so is the result. -/
theorem pagination_terminates_nodup (pyInt : PyStr → Option Int) (inc : Bool)
    (now : Nat → Int) (resps : Nat → HttpResponse) (pages : Nat → List Repo) (k fuel : Nat)
    (H : ∀ i, resps i = listResponse (pages (i + 1)))
    (hk : 1 ≤ k) (hke : pages k = [])
    (hne : ∀ j, 1 ≤ j → j < k → pages j ≠ [])
    (hfuel : k ≤ fuel) :
    (fetch_all_repos pyInt inc now resps fuel).finished = true
    ∧ (fetch_all_repos pyInt inc now resps fuel).trace = List.range' 1 k
    ∧ (fetch_all_repos pyInt inc now resps fuel).trace.Pairwise (· < ·)
    ∧ (fetch_all_repos pyInt inc now resps fuel).result
        = some (((List.range' 1 (k - 1)).map
            (fun p => (pages p).filter (fun r => inc || !r.archived))).flatten)
    ∧ ((((List.range' 1 (k - 1)).map pages).flatten).Nodup →
        ∀ l, (fetch_all_repos pyInt inc now resps fuel).result = some l → l.Nodup) := by
  have h := fetchLoop_listPages pyInt inc now resps pages H (k - 1) 0 [] fuel (by omega)
    (by
      have harr : 0 + 1 + (k - 1) = k := by omega
      rw [harr]
      exact hke)
    (fun j h1 h2 => hne j (by omega) (by omega))
  have hk1 : k - 1 + 1 = k := by omega
  rw [hk1] at h
  simp only [Nat.zero_add, List.nil_append] at h
  refine ⟨?_, ?_, ?_, ?_, ?_⟩
  · unfold fetch_all_repos
    rw [h]
  · unfold fetch_all_repos
    rw [h]
  · unfold fetch_all_repos
    rw [h]
    exact range'_pairwise_lt k 1
  · unfold fetch_all_repos
    rw [h]
  · intro hnd l hl
    unfold fetch_all_repos at hl
    rw [h] at hl
    simp only [Option.some.injEq] at hl
    subst hl
    exact hnd.sublist (flatten_map_filter_sublist _ pages _)

/-- C5 witness: one nonempty page, then page 2 is empty: the loop finishes,
requests pages 1 and 2 only, and returns the single descriptor once. -/
theorem pagination_terminates_nodup_witness :
    (fetch_all_repos (fun _ => none) true (fun _ => 0) wRespsPages 2).trace = [1, 2]
    ∧ (fetch_all_repos (fun _ => none) true (fun _ => 0) wRespsPages 2).result
        = some [wRepo] := by
  have h := pagination_terminates_nodup (fun _ => none) true (fun _ => 0) wRespsPages wPages
    2 2 (fun i => rfl) (by decide) (by decide)
    (by
      intro j h1 h2
      have hj : j = 1 := by omega
      subst hj
      decide)
    (by decide)
  refine ⟨?_, ?_⟩
  · rw [h.2.1]
    rfl
  · rw [h.2.2.2.1]
    decide

theorem fetchLoop_archivedRel (pyInt : PyStr → Option Int) (now : Nat → Int)
    (resps : Nat → HttpResponse) :
    ∀ fuel reqIdx page acc,
      fetchLoop pyInt false now resps fuel reqIdx page
          (acc.filter (fun r => !r.archived)) =
        ⟨(fetchLoop pyInt true now resps fuel reqIdx page acc).result.map
            (List.filter (fun r => !r.archived)),
         (fetchLoop pyInt true now resps fuel reqIdx page acc).trace,
         (fetchLoop pyInt true now resps fuel reqIdx page acc).sleeps,
         (fetchLoop pyInt true now resps fuel reqIdx page acc).finished⟩ := by
  intro fuel
  induction fuel with
  | zero =>
    intro reqIdx page acc
    simp [fetchLoop]
  | succ fuel ih =>
    intro reqIdx page acc
    simp only [fetchLoop]
    cases hstep : listerStep pyInt (now reqIdx) (resps reqIdx) with
    | rateLimit w =>
      simp only [ih (reqIdx + 1) page acc]
    | fatal => rfl
    | done => rfl
    | page data =>
      have hacc : (acc.filter (fun r => !r.archived))
            ++ data.filter (fun r => false || !r.archived)
          = (acc ++ data.filter (fun r => true || !r.archived)).filter
              (fun r => !r.archived) := by
        simp [List.filter_append]
      simp only [hacc, ih (reqIdx + 1) (page + 1)
        (acc ++ data.filter (fun r => true || !r.archived))]

/-- C6: for the same responses, the `includeArchived = false` listing is
exactly the `includeArchived = true` listing with every archived entry
removed: it excludes every archived entry, keeps every non-archived one, and
is a sub-list (so the `includeArchived = true` result is a superset); the
loop control (pages requested, sleeps, termination) is unaffected. -/
theorem archived_filter_correct (pyInt : PyStr → Option Int) (now : Nat → Int)
    (resps : Nat → HttpResponse) (fuel : Nat) :
    (fetch_all_repos pyInt false now resps fuel).result
        = (fetch_all_repos pyInt true now resps fuel).result.map
            (List.filter (fun r => !r.archived))
    ∧ (fetch_all_repos pyInt false now resps fuel).trace
        = (fetch_all_repos pyInt true now resps fuel).trace
    ∧ (fetch_all_repos pyInt false now resps fuel).sleeps
        = (fetch_all_repos pyInt true now resps fuel).sleeps
    ∧ (fetch_all_repos pyInt false now resps fuel).finished
        = (fetch_all_repos pyInt true now resps fuel).finished
    ∧ (∀ l, (fetch_all_repos pyInt true now resps fuel).result = some l →
        (fetch_all_repos pyInt false now resps fuel).result
            = some (l.filter (fun r => !r.archived))
        ∧ List.Sublist (l.filter (fun r => !r.archived)) l
        ∧ (∀ r ∈ l.filter (fun r => !r.archived), r.archived = false)
        ∧ (∀ r ∈ l, r.archived = false → r ∈ l.filter (fun r => !r.archived))) := by
  have h := fetchLoop_archivedRel pyInt now resps fuel 0 1 []
  have hnil : (([] : List Repo).filter (fun r => !r.archived)) = [] := rfl
  rw [hnil] at h
  unfold fetch_all_repos
  rw [h]
  refine ⟨rfl, rfl, rfl, rfl, ?_⟩
  intro l hl
  rw [hl]
  refine ⟨rfl, List.filter_sublist l, ?_, ?_⟩
  · intro r hr
    have := (List.mem_filter.mp hr).2
    simpa using this
  · intro r hr ha
    exact List.mem_filter.mpr ⟨hr, by simp [ha]⟩

/-- C6 witness: one page with a live and an archived repository: the
filtered run returns only the live one, a sub-list of the unfiltered run's
result. -/
theorem archived_filter_correct_witness :
    (fetch_all_repos (fun _ => none) false (fun _ => 0) wRespsArch 3).result = some [wRepo]
    ∧ List.Sublist ([wRepo, wRepoArch].filter (fun r => !r.archived)) [wRepo, wRepoArch] := by
  have h := archived_filter_correct (fun _ => none) (fun _ => 0) wRespsArch 3
  have h2 := h.2.2.2.2 [wRepo, wRepoArch] (by decide)
  refine ⟨?_, h2.2.1⟩
  rw [h2.1]
  decide

theorem isSuccessLine_render (o : CloneOutcome) : isSuccessLine o.render = o.isSuccess := by
  cases o <;> rfl

theorem isFailedLine_render (o : CloneOutcome) : isFailedLine o.render = o.isFailed := by
  cases o <;> rfl

theorem render_count_newline (o : CloneOutcome) (h : '\n' ∉ o.payload) :
    o.render.count '\n' = 0 := by
  have hp : o.payload.count '\n' = 0 := List.count_eq_zero.mpr h
  cases o <;>
    simp only [CloneOutcome.render, List.count_append] <;>
    simp_all [CloneOutcome.payload]

theorem logFileContents_newlines (outcomes : List CloneOutcome)
    (h : ∀ o ∈ outcomes, '\n' ∉ o.payload) :
    (logFileContents (outcomes.map CloneOutcome.render)).count '\n' = outcomes.length := by
  induction outcomes with
  | nil => rfl
  | cons o rest ih =>
    have ho : o.render.count '\n' = 0 := render_count_newline o (h o (by simp))
    have hr := ih (fun x hx => h x (by simp [hx]))
    simp only [logFileContents, List.map_cons, List.map_map, List.flatten_cons,
      List.count_append, List.length_cons] at hr ⊢
    simp [ho, hr]
    omega

/-- C8: rendering a list of outcomes to the strings the code uses, the
summary's success count equals the number of `cloned`/`updated` outcomes,
the failure list is exactly the rendered `failed` outcomes, the log file
holds exactly one line (one `'\n'`) per outcome, and every line has the
format `<cloned|updated|failed>: <name or detail>`. -/
theorem summary_counts_correct (outcomes : List CloneOutcome)
    (h : ∀ o ∈ outcomes, '\n' ∉ o.payload) :
    okCount (outcomes.map CloneOutcome.render)
        = outcomes.countP (fun o => o.isSuccess)
    ∧ failedList (outcomes.map CloneOutcome.render)
        = (outcomes.filter (fun o => o.isFailed)).map CloneOutcome.render
    ∧ (logFileContents (outcomes.map CloneOutcome.render)).count '\n' = outcomes.length
    ∧ (∀ o ∈ outcomes,
        o.render = String.toList "cloned: " ++ o.payload
        ∨ o.render = String.toList "updated: " ++ o.payload
        ∨ o.render = String.toList "failed: " ++ o.payload) := by
  refine ⟨?_, ?_, logFileContents_newlines outcomes h, ?_⟩
  · unfold okCount
    rw [List.countP_map]
    exact List.countP_congr (fun o _ => by simp [Function.comp, isSuccessLine_render])
  · unfold failedList
    rw [List.filter_map]
    have hfc : ∀ o ∈ outcomes, ((fun r => isFailedLine r) ∘ CloneOutcome.render) o
        = (fun o => CloneOutcome.isFailed o) o :=
      fun o _ => by simp [Function.comp, isFailedLine_render]
    rw [List.filter_congr hfc]
  · intro o _
    cases o with
    | cloned n => exact Or.inl rfl
    | updated n => exact Or.inr (Or.inl rfl)
    | failed d => exact Or.inr (Or.inr rfl)

/-- C8 witness: one success and one failure give success count 1, a
one-element failure list, and two log lines. -/
theorem summary_counts_correct_witness :
    okCount ([CloneOutcome.cloned (String.toList "a"),
        CloneOutcome.failed (String.toList "x")].map CloneOutcome.render) = 1
    ∧ (logFileContents ([CloneOutcome.cloned (String.toList "a"),
        CloneOutcome.failed (String.toList "x")].map CloneOutcome.render)).count '\n' = 2 := by
  have h := summary_counts_correct
    [CloneOutcome.cloned (String.toList "a"), CloneOutcome.failed (String.toList "x")]
    (by decide)
  refine ⟨?_, ?_⟩
  · rw [h.1]
    decide
  · rw [h.2.2.1]
    rfl
